import Mathlib

/-!
Verification of the `search` repository: a shallow embedding of the
schema-directed flattener (`search/mods/entries.py`, `fields.py`,
`indexes.py`), the SQL engine (`search/mods/sql.py`), the unflattener
(`search/mods/unflat.py`), the filter-model compilation
(`search/mods/decorators.py`, `helper.py`) and the fuzzy threshold
(`search/mods/search_.py`), together with theorems settling the spec
claims about them.

Python dicts are modelled as insertion-ordered association lists
(`List (String × α)`): lookup returns the first binding, assignment
replaces in place or appends.  JSON-like values are a tagged variant.
-/

namespace SearchRepo

/-- JSON-like Python value: None, bool, int, float, str, list, dict.
Floats are modelled as exact rationals. -/
inductive Value where
  | null : Value
  | bool : Bool → Value
  | int : Int → Value
  | float : ℚ → Value
  | str : String → Value
  | list : List Value → Value
  | obj : List (String × Value) → Value

/-- An insertion-ordered string-keyed mapping (a Python dict). -/
abbrev Assoc := List (String × Value)

/-- `d.get(k)`: first binding of `k`, if any. -/
def aget {α : Type} : List (String × α) → String → Option α
  | [], _ => none
  | (k0, v0) :: rest, k => if k0 = k then some v0 else aget rest k

/-- `d[k] = v`: replace the binding in place, else append. -/
def aset {α : Type} : List (String × α) → String → α → List (String × α)
  | [], k, v => [(k, v)]
  | (k0, v0) :: rest, k, v =>
      if k0 = k then (k0, v) :: rest else (k0, v0) :: aset rest k v

/-- Leaf/scalar field type of the `typed` shim, as far as the claims need it. -/
inductive PyType where
  | str : PyType
  | nat : PyType
  | int : PyType
  | bool : PyType
  | listOf : PyType → PyType
  | maybe : PyType → PyType
deriving DecidableEq

/-- One attribute of a schema `Indexes` model:
`(name, type, optional, default)` in declaration order. -/
structure IndexSpec where
  name : String
  type : PyType
  optional : Bool
  default : Value

/-- The attribute list of a `Fields` model class: each attribute is either
a leaf `(type, default)` or a named nested `Fields` sub-model. -/
inductive FieldTree where
  | nil : FieldTree
  | leafCons (name : String) (type : PyType) (default : Value) (rest : FieldTree) : FieldTree
  | groupCons (name : String) (children : FieldTree) (rest : FieldTree) : FieldTree

/-- The value of one entry of the dict returned by `_field_specs`:
the full path, the leaf type and the leaf default. -/
structure FieldSpec where
  path : List String
  type : PyType
  default : Value

/-- A registered schema: root name, ordered index attributes, field tree
(`search/mods/models.py`, `Schema`). -/
structure Schema where
  root : String
  indexes : List IndexSpec
  fields : FieldTree

/-- `search/mods/fields.py`, `_field_specs`: recursively collect leaf
fields; a leaf is stored in `result` keyed by its attribute `name`
(dict assignment), with the accumulated `path` kept in the spec. -/
def _field_specs : FieldTree → List String → List (String × FieldSpec) →
    List (String × FieldSpec)
  | .nil, _, result => result
  | .leafCons name t d rest, pre, result =>
      _field_specs rest pre (aset result name ⟨pre ++ [name], t, d⟩)
  | .groupCons name children rest, pre, result =>
      _field_specs rest pre (_field_specs children (pre ++ [name]) result)

/-- `search/mods/indexes.py`, `_index_specs`: the ordered index specs. -/
def _index_specs (schema : Schema) : List IndexSpec :=
  schema.indexes

/-- Filter values handed to the flattener: `none` models the Python
`filters=None`; `some attrs` models a `Filters` instance as its
attribute/value list (`Value.null` standing for `None`). -/
abbrev Filters := Option Assoc

/-- `search/mods/indexes.py`, `_index_filters`: defaults from the schema
index model, overridden by the filter attributes when present, keeping
only non-None values. -/
def _index_filters (schema : Schema) (filters : Filters) : Assoc :=
  let base := (_index_specs schema).map (fun s =>
    match filters with
    | some f => (s.name, (aget f s.name).getD s.default)
    | none => (s.name, s.default))
  base.filter (fun kv => match kv.2 with | .null => false | _ => true)

/-- `search/mods/entries.py`, `_get_in`: walk `path` in `entity`;
a missing key, a non-dict intermediate, or a `None` value yields
`default`. -/
def _get_in (entity : Value) (path : List String) (default : Value) : Value :=
  match path with
  | [] => entity
  | p :: ps =>
      match entity with
      | .obj kvs =>
          match aget kvs p with
          | none => default
          | some v =>
              match v with
              | .null => default
              | _ => _get_in v ps default
      | _ => default

/-- Python `str(...)` string form of a value.  Scalars are modelled
exactly (`str(None) = "None"`, `str(True) = "True"`, …); the repr text
of lists and dicts is never relied on by the code paths under
verification and is modelled as an opaque marker. -/
def pyStrV : Value → String
  | .null => "None"
  | .bool b => if b then "True" else "False"
  | .int n => toString n
  | .float q => toString q
  | .str s => s
  | .list _ => "<list repr>"
  | .obj _ => "<dict repr>"

/-- The recursive worker `_recurse` inside `_iter`
(`search/mods/entries.py`): descend one index level per spec; a filter
value for the level keeps only the matching key; at the innermost depth
yield the accumulated index values with the entity when it is a dict. -/
def iterAux (index_filters : Assoc) :
    List IndexSpec → Value → Assoc → List (Assoc × Value)
  | [], node, acc =>
      match node with
      | .obj _ => [(acc, node)]
      | _ => []
  | spec :: rest, node, acc =>
      match node with
      | .obj kvs =>
          kvs.flatMap (fun kv =>
            match aget index_filters spec.name with
            | some fval =>
                if kv.1 = pyStrV fval then
                  iterAux index_filters rest kv.2 (aset acc spec.name (.str kv.1))
                else []
            | none => iterAux index_filters rest kv.2 (aset acc spec.name (.str kv.1)))
      | _ => []

/-- `search/mods/entries.py`, `_iter`: with no index specs the root is
yielded unconditionally; otherwise recurse from depth 0. -/
def _iter (root : Value) (index_specs : List IndexSpec) (index_filters : Assoc) :
    List (Assoc × Value) :=
  match index_specs with
  | [] => [([], root)]
  | _ => iterAux index_filters index_specs root []

/-- `search/mods/entries.py`, `_all_entries`: flatten `json_data`
according to `schema` applying index filters only.  NOTE: the Python
code passes `json_data` itself to `_iter` — it never selects
`json_data[schema.root]`. -/
def _all_entries (schema : Schema) (json_data : Value) (filters : Filters) :
    List Assoc :=
  let index_specs := _index_specs schema
  let index_filters := _index_filters schema filters
  let field_specs := _field_specs schema.fields [] []
  (_iter json_data index_specs index_filters).filterMap (fun p =>
    match p with
    | (index_values, Value.obj kvs) =>
        let record := field_specs.foldl
          (fun r fs => aset r fs.1 (_get_in (Value.obj kvs) fs.2.path fs.2.default))
          index_values
        some (aset record "entity" (Value.obj kvs))
    | _ => none)

mutual
/-- Python `==` on values.  Structural on both sides apart from the
numeric tower: `True == 1`, `1 == 1.0`, … compare numerically. -/
def pyEq : Value → Value → Bool
  | .null, .null => true
  | .bool a, .bool b => a = b
  | .bool a, .int b => (if a then 1 else 0 : Int) = b
  | .bool a, .float b => ((if a then 1 else 0 : Int) : ℚ) = b
  | .int a, .bool b => a = (if b then 1 else 0 : Int)
  | .int a, .int b => a = b
  | .int a, .float b => (a : ℚ) = b
  | .float a, .bool b => a = ((if b then 1 else 0 : Int) : ℚ)
  | .float a, .int b => a = (b : ℚ)
  | .float a, .float b => a = b
  | .str a, .str b => a = b
  | .list a, .list b => pyEqList a b
  | .obj a, .obj b => pyEqObj a b
  | _, _ => false
/-- Elementwise `==` of two Python lists. -/
def pyEqList : List Value → List Value → Bool
  | [], [] => true
  | x :: xs, y :: ys => pyEq x y && pyEqList xs ys
  | _, _ => false
/-- `==` of two dicts.  Our dicts come from insertion-ordered builds, so
the pairwise ordered comparison coincides with Python dict equality on
every value produced by the code under verification. -/
def pyEqObj : List (String × Value) → List (String × Value) → Bool
  | [], [] => true
  | (k, v) :: xs, (k2, v2) :: ys => k = k2 && pyEq v v2 && pyEqObj xs ys
  | _, _ => false
end

mutual
/-- Structural size of a value (used as recursion fuel). -/
def vsize : Value → Nat
  | .null => 1
  | .bool _ => 1
  | .int _ => 1
  | .float _ => 1
  | .str _ => 1
  | .list xs => 1 + vsizeList xs
  | .obj kvs => 1 + vsizeObj kvs
/-- Structural size of a list of values. -/
def vsizeList : List Value → Nat
  | [] => 1
  | x :: xs => 1 + vsize x + vsizeList xs
/-- Structural size of a dict payload. -/
def vsizeObj : List (String × Value) → Nat
  | [] => 1
  | (_, v) :: kvs => 1 + vsize v + vsizeObj kvs
end

/-- Python whitespace (`\s` over ASCII). -/
def isPyWs (c : Char) : Bool :=
  c = ' ' || c = '\t' || c = '\n' || c = '\r' || c = '\x0b' || c = '\x0c'

/-- Drop leading whitespace from a character list. -/
def dropWsL (cs : List Char) : List Char := cs.dropWhile isPyWs

/-- Python `s.strip()`. -/
def stripL (cs : List Char) : List Char :=
  ((cs.dropWhile isPyWs).reverse.dropWhile isPyWs).reverse

/-- `s.strip()` on strings. -/
def strStrip (s : String) : String := ⟨stripL s.data⟩

/-- `s.lower()` (ASCII). -/
def strLower (s : String) : String := ⟨s.data.map Char.toLower⟩

/-- `s.upper()` (ASCII). -/
def strUpper (s : String) : String := ⟨s.data.map Char.toUpper⟩

/-- The `_norm` helper inside `_apply_filters`
(`search/mods/entries.py`): `None` stays `None`, anything else becomes
its trimmed, case-folded string form. -/
def pyNorm : Option Value → Option String
  | none => none
  | some .null => none
  | some v => some (strLower (strStrip (pyStrV v)))

/-- `search/mods/entries.py`, `_apply_filters`: drop entries whose
normalised value at each non-index, non-None filter attribute differs
from the normalised filter value. -/
def _apply_filters (entries : List Assoc) (schema : Schema) (filters : Filters) :
    List Assoc :=
  match filters with
  | none => entries
  | some filter_attrs =>
      let index_names := (_index_specs schema).map (fun s => s.name)
      filter_attrs.foldl (fun es nv =>
        if nv.1 ∈ index_names then es
        else
          match nv.2 with
          | .null => es
          | fval =>
              let target := pyNorm (some fval)
              es.filter (fun e => pyNorm (aget e nv.1) = target)) entries

/-- `search/mods/entries.py`, `_filtered_entries`: flatten then apply
non-index filters. -/
def _filtered_entries (schema : Schema) (json_data : Value) (filters : Filters) :
    List Assoc :=
  _apply_filters (_all_entries schema json_data filters) schema filters

/-- `search/mods/search_.py`, `_similarity_threshold`: clamp `temp` to
`[0, 100]` and map it to `0.9 - 0.8 * (t / 100)`.  Arithmetic is
modelled exactly over the rationals. -/
def _similarity_threshold (temp : ℚ) : ℚ :=
  let t := max 0 (min 100 temp)
  9/10 - 8/10 * (t / 100)

/-- `search/mods/search_.py`, `_reshape_entry`: split a flat entry into
the canonical dict with `root`, `indexes` (keys that are schema index
names) and `fields` (every other key). -/
def _reshape_entry (entry : Assoc) (schema : Schema) : Assoc :=
  let index_names := (_index_specs schema).map (fun s => s.name)
  let pair := entry.foldl
    (fun (p : Assoc × Assoc) kv =>
      if kv.1 ∈ index_names then (aset p.1 kv.1 kv.2, p.2)
      else (p.1, aset p.2 kv.1 kv.2))
    ([], [])
  [("root", Value.str schema.root),
   ("indexes", Value.obj pair.1),
   ("fields", Value.obj pair.2)]

/-! ### String scanning for the SQL engine (`search/mods/sql.py`)

The Python code drives parsing with regular expressions; each one is
played back here by a direct scanner with the same matching behaviour
(case-insensitive keywords, `\b` word boundaries, leftmost match,
greedy whitespace). -/

/-- A regex word character, `[A-Za-z0-9_]`. -/
def isWordChar (c : Char) : Bool := c.isAlpha || c.isDigit || c = '_'

/-- First character of an identifier, `[A-Za-z_]`. -/
def isIdentStart (c : Char) : Bool := c.isAlpha || c = '_'

/-- Subsequent identifier characters, `[A-Za-z0-9_.]`. -/
def isIdentChar (c : Char) : Bool := c.isAlpha || c.isDigit || c = '_' || c = '.'

/-- Case-insensitive literal match; returns the remainder on success. -/
def matchCI : List Char → List Char → Option (List Char)
  | [], s => some s
  | _, [] => none
  | w :: ws, c :: cs => if c.toUpper = w.toUpper then matchCI ws cs else none

/-- `\s+`: require at least one whitespace character, consume the run. -/
def ws1 : List Char → Option (List Char)
  | c :: cs => if isPyWs c then some (dropWsL cs) else none
  | [] => none

/-- Right-hand word boundary: the next character is not a word character. -/
def boundaryR : List Char → Bool
  | [] => true
  | c :: _ => !isWordChar c

/-- `re.search(r"\b<w>\b", s, IGNORECASE)`: leftmost occurrence of the
word with boundaries, returning the text before and after the match. -/
def searchWordCI (w : List Char) : List Char → List Char → Option (List Char × List Char)
  | _, [] => none
  | acc, c :: rest =>
      let boundaryOk := match acc with | [] => true | p :: _ => !isWordChar p
      match (if boundaryOk then matchCI w (c :: rest) else none) with
      | some rem =>
          if boundaryR rem then some (acc.reverse, rem)
          else searchWordCI w (c :: acc) rest
      | none => searchWordCI w (c :: acc) rest

/-- One attempt of `INNER\s+JOIN|JOIN` at the current position. -/
def matchJoinKw (s : List Char) : Option (List Char) :=
  match matchCI "INNER".data s with
  | some r1 =>
      (match ws1 r1 with
       | some r2 =>
           (match matchCI "JOIN".data r2 with
            | some r3 => if boundaryR r3 then some r3 else none
            | none => none)
       | none => none)
  | none =>
      match matchCI "JOIN".data s with
      | some r => if boundaryR r then some r else none
      | none => none

/-- `re.search(r"\b(INNER\s+JOIN|JOIN)\b", s, IGNORECASE)`. -/
def searchJoinKw : List Char → List Char → Option (List Char × List Char)
  | _, [] => none
  | acc, c :: rest =>
      let boundaryOk := match acc with | [] => true | p :: _ => !isWordChar p
      match (if boundaryOk then matchJoinKw (c :: rest) else none) with
      | some rem => some (acc.reverse, rem)
      | none => searchJoinKw (c :: acc) rest

/-- `\s+FROM\s+` at the current position (greedy whitespace). -/
def matchWsFromWs (s : List Char) : Option (List Char) :=
  match ws1 s with
  | some r1 =>
      (match matchCI "FROM".data r1 with
       | some r2 => ws1 r2
       | none => none)
  | none => none

/-- The lazy `(?P<select>.+?)\s+FROM\s+` of `_SQL_RE`: earliest split
with a non-empty select part. -/
def findFromSplit : List Char → List Char → Option (List Char × List Char)
  | _, [] => none
  | selRev, c :: rest =>
      match (match selRev with | [] => none | _ => matchWsFromWs (c :: rest)) with
      | some rem => some (selRev.reverse, rem)
      | none => findFromSplit (c :: selRev) rest

/-- `search/mods/sql.py`, `_SQL_RE.match`: anchored
`^\s*SELECT\s+(select).+?\s+FROM\s+(from_and_rest).+?\s*;?\s*$`
(IGNORECASE, DOTALL); returns the two capture groups. -/
def sqlMatch (query : String) : Option (String × String) :=
  let cs := dropWsL query.data
  match matchCI "SELECT".data cs with
  | none => none
  | some r1 =>
      match ws1 r1 with
      | none => none
      | some r2 =>
          match findFromSplit [] r2 with
          | none => none
          | some (sel, rest) =>
              let r := rest.reverse.dropWhile isPyWs
              let rb :=
                match r with
                | c :: tail2 =>
                    if c = ';' then
                      match tail2.dropWhile isPyWs with
                      | [] => r
                      | t => t
                    else r
                | [] => r
              match rb with
              | [] => none
              | _ => some (⟨sel⟩, ⟨rb.reverse⟩)

/-- Split a string on a separator character (Python `s.split(sep)`). -/
def splitCharL (sep : Char) : List Char → List (List Char)
  | [] => [[]]
  | c :: rest =>
      let r := splitCharL sep rest
      if c = sep then [] :: r
      else
        match r with
        | h :: t => (c :: h) :: t
        | [] => [[c]]

/-- Python `s.split(".")`. -/
def splitDot (s : String) : List String := (splitCharL '.' s.data).map (fun l => ⟨l⟩)

/-- Python `s.split(",")`. -/
def splitComma (s : String) : List String := (splitCharL ',' s.data).map (fun l => ⟨l⟩)

/-- Python `s.split(".", 1)[1]` for a string known to contain a dot. -/
def afterFirstDot (s : String) : String :=
  match s.data.dropWhile (fun c => c != '.') with
  | _ :: rest => ⟨rest⟩
  | [] => s

/-- `s.startswith(p)`. -/
def strStartsWith (s p : String) : Bool := p.data.isPrefixOf s.data

/-- Drop the first `n` characters of a string. -/
def strDropLen (s : String) (n : Nat) : String := ⟨s.data.drop n⟩

/-- The single-quote character. -/
def squote : Char := Char.ofNat 39

/-- Value of a digit run. -/
def digToNat (cs : List Char) : Nat := cs.foldl (fun n c => n * 10 + (c.toNat - 48)) 0

/-- `^-?\d+$` and Python `int(s)`. -/
def intLit (cs : List Char) : Option Int :=
  match cs with
  | '-' :: rest =>
      if rest ≠ [] ∧ rest.all Char.isDigit then some (-(digToNat rest : Int)) else none
  | _ => if cs ≠ [] ∧ cs.all Char.isDigit then some ((digToNat cs : Int)) else none

/-- `\d+\.\d*` and Python `float(s)` (exact rational). -/
def floatLitCore (cs : List Char) : Option ℚ :=
  let ip := cs.takeWhile Char.isDigit
  let rest := cs.drop ip.length
  match ip, rest with
  | [], _ => none
  | _, '.' :: frac =>
      if frac.all Char.isDigit then
        some ((digToNat ip : ℚ) + (digToNat frac : ℚ) / ((10 : ℚ) ^ frac.length))
      else none
  | _, _ => none

/-- `^-?\d+\.\d*$`. -/
def floatLit : List Char → Option ℚ
  | '-' :: rest => (floatLitCore rest).map (fun q => -q)
  | cs => floatLitCore cs

/-- `search/mods/sql.py`, `_parse_literal`: strip, unquote, recognise
TRUE/FALSE, integers and decimals, otherwise keep the bare string. -/
def _parse_literal (s : String) : Value :=
  let t := stripL s.data
  match t with
  | [] => .str ⟨t⟩
  | c :: _ =>
      let lastc := t.getLastD ' '
      if 2 ≤ t.length ∧ c = lastc ∧ (c = squote ∨ c = '"') then
        .str ⟨(t.drop 1).dropLast⟩
      else if strUpper ⟨t⟩ = "TRUE" then .bool true
      else if strUpper ⟨t⟩ = "FALSE" then .bool false
      else
        match intLit t with
        | some n => .int n
        | none =>
            match floatLit t with
            | some q => .float q
            | none => .str ⟨t⟩

/-! ### WHERE tokenizer (`_WHERE_TOKEN_RE` + `finditer`) -/

/-- Scan the body of a quoted string `q(?:[^q\\]|\\.)*q` after the
opening quote; returns the body (escapes kept) and the remainder after
the closing quote. -/
def scanQuoted (q : Char) : List Char → Option (List Char × List Char)
  | [] => none
  | c :: rest =>
      if c = q then some ([], rest)
      else if c = '\\' then
        match rest with
        | [] => none
        | e :: rest2 => (scanQuoted q rest2).map (fun pr => (c :: e :: pr.1, pr.2))
      else (scanQuoted q rest).map (fun pr => (c :: pr.1, pr.2))

/-- `-?\d+\.\d+` token. -/
def scanFloatTok (s : List Char) : Option (List Char × List Char) :=
  let core (cs : List Char) : Option (List Char × List Char) :=
    let ip := cs.takeWhile Char.isDigit
    match ip, cs.drop ip.length with
    | [], _ => none
    | _, '.' :: r2 =>
        let fp := r2.takeWhile Char.isDigit
        match fp with
        | [] => none
        | _ => some (ip ++ '.' :: fp, r2.drop fp.length)
    | _, _ => none
  match s with
  | '-' :: rest => (core rest).map (fun pr => ('-' :: pr.1, pr.2))
  | _ => core s

/-- `-?\d+` token. -/
def scanIntTok (s : List Char) : Option (List Char × List Char) :=
  let core (cs : List Char) : Option (List Char × List Char) :=
    match cs.takeWhile Char.isDigit with
    | [] => none
    | ds => some (ds, cs.drop ds.length)
  match s with
  | '-' :: rest => (core rest).map (fun pr => ('-' :: pr.1, pr.2))
  | _ => core s

/-- `[A-Za-z_][A-Za-z0-9_.]*` token. -/
def scanIdent (s : List Char) : Option (List Char × List Char) :=
  match s with
  | c :: rest =>
      if isIdentStart c then
        let tl := rest.takeWhile isIdentChar
        some (c :: tl, rest.drop tl.length)
      else none
  | [] => none

/-- The numeric and identifier alternatives of `_WHERE_TOKEN_RE`. -/
def tokAtNum (s : List Char) : Option (String × List Char) :=
  match scanFloatTok s with
  | some (tok, r) => some (⟨tok⟩, r)
  | none =>
      match scanIntTok s with
      | some (tok, r) => some (⟨tok⟩, r)
      | none =>
          match scanIdent s with
          | some (tok, r) => some (⟨tok⟩, r)
          | none => none

/-- One alternative of `_WHERE_TOKEN_RE` at the current position, in
the regex alternation order. -/
def tokAt (s : List Char) : Option (String × List Char) :=
  match s with
  | [] => none
  | '(' :: r => some ("(", r)
  | ')' :: r => some (")", r)
  | _ =>
      match matchCI "AND".data s with
      | some r => some (⟨s.take 3⟩, r)
      | none =>
          match matchCI "OR".data s with
          | some r => some (⟨s.take 2⟩, r)
          | none =>
              match s with
              | '=' :: r => some ("=", r)
              | c :: rest =>
                  if c = squote then
                    match scanQuoted squote rest with
                    | some (body, rem) => some (⟨c :: body ++ [squote]⟩, rem)
                    | none => tokAtNum s
                  else if c = '"' then
                    match scanQuoted '"' rest with
                    | some (body, rem) => some (⟨c :: body ++ ['"']⟩, rem)
                    | none => tokAtNum s
                  else tokAtNum s
              | [] => none

/-- `finditer` scan: skip whitespace, emit the token matched at each
position, silently advancing over characters no alternative matches. -/
def tokenizeWhereAux : Nat → List Char → List String
  | 0, _ => []
  | _, [] => []
  | fuel + 1, s =>
      match tokAt (dropWsL s) with
      | some (tok, rest) => tok :: tokenizeWhereAux fuel rest
      | none =>
          match s with
          | [] => []
          | _ :: rest => tokenizeWhereAux fuel rest

/-- `search/mods/sql.py`, `_tokenize_where`: strip; an empty clause has
no tokens; a non-empty clause with no recognisable token is an error. -/
def _tokenize_where (w : String) : Except String (List String) :=
  let cs := stripL w.data
  match cs with
  | [] => .ok []
  | _ =>
      match tokenizeWhereAux (cs.length + 1) cs with
      | [] => .error ("Invalid WHERE clause: " ++ (⟨cs⟩ : String))
      | toks => .ok toks

/-! ### WHERE recursive-descent parser (`_WhereParser`) -/

/-- A compiled WHERE predicate over a flattened entry. -/
abbrev WPred := Assoc → Bool

/-- `_consume_identifier`: any token except the punctuation and the
(case-sensitive) reserved words. -/
def wConsumeIdentifier : List String → Except String (String × List String)
  | [] => .error "Unexpected end of WHERE clause (expected identifier)"
  | tok :: rest =>
      if tok = "(" ∨ tok = ")" ∨ tok = "=" ∨ tok = "AND" ∨ tok = "OR" then
        .error ("Expected identifier but got " ++ tok ++ " in WHERE clause")
      else .ok (tok, rest)

/-- The primary-root stripping step at the top of `_parse_condition`:
`books.publisher.city → publisher.city`, `books.indexes.id →
indexes.id`. -/
def wStripRoot (primary_root : Option String) (ident0 : String) : String :=
  match primary_root with
  | some pr =>
      if strStartsWith ident0 (pr ++ ".") then strDropLen ident0 (pr.length + 1)
      else ident0
  | none => ident0

/-- Resolution of a condition identifier in `_parse_condition`: strip a
primary-root qualifier, resolve `indexes.<name>` against the known
index names (the only check), otherwise use the identifier as a direct
key into the flattened entry. -/
def wResolveField (index_names : List String) (primary_root : Option String)
    (ident0 : String) : Except String String :=
  let ident := wStripRoot primary_root ident0
  if strStartsWith (strLower ident) "indexes." then
    let idx_name := afterFirstDot ident
    if idx_name ∈ index_names then .ok idx_name
    else .error ("Unknown index name " ++ idx_name ++ " in WHERE")
  else if ident ∈ index_names then .ok ident
  else .ok ident

/-- `_parse_condition`: `IDENT = LITERAL`, compiled to
`entry.get(field_name) == value`. -/
def wParseCondition (index_names : List String) (primary_root : Option String)
    (toks : List String) : Except String (WPred × List String) :=
  match wConsumeIdentifier toks with
  | .error e => .error e
  | .ok (ident, r1) =>
      match r1 with
      | [] => .error "Unexpected end of WHERE clause"
      | eqTok :: r2 =>
          if strUpper eqTok = "=" then
            match r2 with
            | [] => .error "Unexpected end of WHERE clause (expected value)"
            | vTok :: r3 =>
                if strUpper vTok = "AND" ∨ strUpper vTok = "OR" ∨ vTok = "(" ∨
                    vTok = ")" ∨ vTok = "=" then
                  .error ("Expected value but got " ++ vTok ++ " in WHERE clause")
                else
                  let value := _parse_literal vTok
                  match wResolveField index_names primary_root ident with
                  | .error e => .error e
                  | .ok field_name =>
                      .ok ((fun entry => pyEq ((aget entry field_name).getD Value.null) value), r3)
          else .error ("Expected = but got " ++ eqTok ++ " in WHERE clause")

mutual
/-- `_parse_expr`: `term (OR term)*`. -/
def wParseExpr (index_names : List String) (primary_root : Option String) :
    Nat → List String → Except String (WPred × List String)
  | 0, _ => .error "WHERE parser fuel exhausted"
  | fuel + 1, toks =>
      match wParseTerm index_names primary_root fuel toks with
      | .error e => .error e
      | .ok (l, r) => wOrLoop index_names primary_root fuel l r
/-- The `(OR term)*` loop. -/
def wOrLoop (index_names : List String) (primary_root : Option String) :
    Nat → WPred → List String → Except String (WPred × List String)
  | 0, _, _ => .error "WHERE parser fuel exhausted"
  | fuel + 1, left, toks =>
      match toks with
      | t :: rest =>
          if strUpper t = "OR" then
            match wParseTerm index_names primary_root fuel rest with
            | .error e => .error e
            | .ok (right, r2) =>
                wOrLoop index_names primary_root fuel (fun e => left e || right e) r2
          else .ok (left, toks)
      | [] => .ok (left, toks)
/-- `_parse_term`: `factor (AND factor)*`. -/
def wParseTerm (index_names : List String) (primary_root : Option String) :
    Nat → List String → Except String (WPred × List String)
  | 0, _ => .error "WHERE parser fuel exhausted"
  | fuel + 1, toks =>
      match wParseFactor index_names primary_root fuel toks with
      | .error e => .error e
      | .ok (l, r) => wAndLoop index_names primary_root fuel l r
/-- The `(AND factor)*` loop. -/
def wAndLoop (index_names : List String) (primary_root : Option String) :
    Nat → WPred → List String → Except String (WPred × List String)
  | 0, _, _ => .error "WHERE parser fuel exhausted"
  | fuel + 1, left, toks =>
      match toks with
      | t :: rest =>
          if strUpper t = "AND" then
            match wParseFactor index_names primary_root fuel rest with
            | .error e => .error e
            | .ok (right, r2) =>
                wAndLoop index_names primary_root fuel (fun e => left e && right e) r2
          else .ok (left, toks)
      | [] => .ok (left, toks)
/-- `_parse_factor`: a parenthesised expression or a condition. -/
def wParseFactor (index_names : List String) (primary_root : Option String) :
    Nat → List String → Except String (WPred × List String)
  | 0, _ => .error "WHERE parser fuel exhausted"
  | fuel + 1, toks =>
      match toks with
      | [] => .error "Unexpected end of WHERE clause"
      | t :: rest =>
          if t = "(" then
            match wParseExpr index_names primary_root fuel rest with
            | .error e => .error e
            | .ok (p, r2) =>
                match r2 with
                | cp :: r3 =>
                    if cp = ")" then .ok (p, r3)
                    else .error "Missing closing paren in WHERE clause"
                | [] => .error "Missing closing paren in WHERE clause"
          else wParseCondition index_names primary_root toks
end

/-- `_WhereParser.parse`: empty token lists accept everything, and a
fully parsed expression must consume every token. -/
def wParse (index_names : List String) (primary_root : Option String)
    (toks : List String) : Except String WPred :=
  match toks with
  | [] => .ok (fun _ => true)
  | _ =>
      match wParseExpr index_names primary_root (3 * toks.length + 16) toks with
      | .error e => .error e
      | .ok (p, rest) =>
          match rest with
          | [] => .ok p
          | t :: _ => .error ("Unexpected token " ++ t ++ " in WHERE clause")

/-- `search/mods/sql.py`, `_build_where_predicate`. -/
def _build_where_predicate (whereCl : Option String) (primary_schema : Schema)
    (primary_root : Option String) : Except String WPred :=
  match whereCl with
  | none => .ok (fun _ => true)
  | some w =>
      if w = "" then .ok (fun _ => true)
      else
        match _tokenize_where w with
        | .error e => .error e
        | .ok toks =>
            let index_names := (_index_specs primary_schema).map (fun s => s.name)
            wParse index_names primary_root toks

/-! ### Schema registry and the SQL entry point -/

/-- The process-wide `SCHEMA_REGISTRY`, threaded explicitly. -/
abbrev Registry := List (String × Schema)

/-- `search/mods/sql.py`, `register_schema`: store the schema keyed by
its root name (plain dict assignment — an existing entry is replaced). -/
def register_schema (reg : Registry) (schema : Schema) : Registry :=
  aset reg schema.root schema

/-- `search/mods/sql.py`, `_parse_from_root_spec`: resolve
`root[.idx1[.idx2…]]`; the extra segments must be a prefix of the
schema's index names. -/
def _parse_from_root_spec (reg : Registry) (spec : String) :
    Except String (String × Schema × List String) :=
  let parts := splitDot spec
  let root := parts.headD ""
  match aget reg root with
  | none => .error ("No schema registered for root " ++ root ++ ". Use register_schema first.")
  | some schema =>
      let index_names := (_index_specs schema).map (fun s => s.name)
      if 1 < parts.length then
        if parts.drop 1 = index_names.take (parts.length - 1) then
          .ok (root, schema, index_names)
        else .error "FROM path indexes do not match schema indexes"
      else .ok (root, schema, index_names)

/-- Parsed side of a JOIN ON equality (`_parse_qualified_ident`). -/
structure QIdent where
  root : String
  isIdx : Bool
  name : String

/-- `search/mods/sql.py`, `_parse_qualified_ident`. -/
def _parse_qualified_ident (ident : String) (left_root right_root : String)
    (left_schema right_schema : Schema) : Except String QIdent :=
  let parts := splitDot ident
  if parts.length < 2 then
    .error ("JOIN identifiers must be qualified with a root; got " ++ ident)
  else
    let root := parts.headD ""
    match (if root = left_root then some left_schema
           else if root = right_root then some right_schema else none) with
    | none => .error ("Unknown root " ++ root ++ " in JOIN condition")
    | some schema =>
        let index_names := (_index_specs schema).map (fun s => s.name)
        let field_specs := _field_specs schema.fields [] []
        if 3 ≤ parts.length ∧ parts.getD 1 "" = "indexes" then
          let idx_name := parts.getD 2 ""
          if idx_name ∈ index_names then .ok ⟨root, true, idx_name⟩
          else .error ("Unknown index " ++ idx_name ++ " in JOIN condition for root " ++ root)
        else
          let name_rest := String.intercalate "." (parts.drop 1)
          if parts.length = 2 ∧ parts.getD 1 "" ∈ index_names ∧
              (aget field_specs name_rest).isNone then
            .ok ⟨root, true, parts.getD 1 ""⟩
          else if (aget field_specs name_rest).isNone then
            .error ("Unknown field " ++ name_rest ++ " in JOIN condition for root " ++ root)
          else .ok ⟨root, false, name_rest⟩

/-- `\s+AND\s+` at the current position (the separator of
`re.split(r"\s+AND\s+", on_clause, IGNORECASE)`). -/
def matchSepAnd (s : List Char) : Option (List Char) :=
  match ws1 s with
  | some r1 =>
      (match matchCI "AND".data r1 with
       | some r2 => ws1 r2
       | none => none)
  | none => none

/-- `re.split(r"\s+AND\s+", …, IGNORECASE)`. -/
def splitAndCIAux : Nat → List Char → List Char → List (List Char)
  | 0, acc, _ => [acc.reverse]
  | _, acc, [] => [acc.reverse]
  | fuel + 1, acc, c :: rest =>
      match matchSepAnd (c :: rest) with
      | some rem => acc.reverse :: splitAndCIAux fuel [] rem
      | none => splitAndCIAux fuel (c :: acc) rest

/-- Split an ON clause on its AND separators. -/
def splitAndCI (s : String) : List String :=
  (splitAndCIAux (s.data.length + 1) [] s.data).map (fun l => ⟨l⟩)

/-- `_JOIN_COND_RE.match`: `^\s*ident\s*=\s*ident\s*$`. -/
def matchJoinCond (cs : List Char) : Option (String × String) :=
  match scanIdent (dropWsL cs) with
  | some (id1, r2) =>
      (match dropWsL r2 with
       | '=' :: r4 =>
           (match scanIdent (dropWsL r4) with
            | some (id2, r6) =>
                if dropWsL r6 = [] then some (⟨id1⟩, ⟨id2⟩) else none
            | none => none)
       | _ => none)
  | none => none

/-- The per-part loop of `_parse_join_on`. -/
def joinCondsAux (left_root right_root : String) (ls rs : Schema) :
    List String → List (QIdent × QIdent) → Except String (List (QIdent × QIdent))
  | [], acc => .ok acc.reverse
  | part :: rest, acc =>
      let p := strStrip part
      if p = "" then joinCondsAux left_root right_root ls rs rest acc
      else
        match matchJoinCond p.data with
        | none => .error ("Invalid JOIN ON condition: " ++ p)
        | some (id1, id2) =>
            match _parse_qualified_ident id1 left_root right_root ls rs with
            | .error e => .error e
            | .ok s1 =>
                match _parse_qualified_ident id2 left_root right_root ls rs with
                | .error e => .error e
                | .ok s2 => joinCondsAux left_root right_root ls rs rest ((s1, s2) :: acc)

/-- `search/mods/sql.py`, `_parse_join_on`. -/
def _parse_join_on (on_clause : String) (left_root right_root : String)
    (left_schema right_schema : Schema) : Except String (List (QIdent × QIdent)) :=
  if on_clause = "" then .error "JOIN ON clause is required"
  else
    match joinCondsAux left_root right_root left_schema right_schema
        (splitAndCI on_clause) [] with
    | .error e => .error e
    | .ok [] => .error ("Empty JOIN ON clause: " ++ on_clause)
    | .ok conds => .ok conds

/-- `search/mods/sql.py`, `_build_join_predicate`. -/
def _build_join_predicate (conditions : List (QIdent × QIdent))
    (left_root : String) (_right_root : String) : Assoc → Assoc → Bool :=
  fun left_entry right_entry =>
    conditions.all (fun c =>
      let v1 := if c.1.root = left_root then (aget left_entry c.1.name).getD .null
                else (aget right_entry c.1.name).getD .null
      let v2 := if c.2.root = left_root then (aget left_entry c.2.name).getD .null
                else (aget right_entry c.2.name).getD .null
      pyEq v1 v2)

/-- `search/mods/sql.py`, `_combine_join_entries`: left keys verbatim;
right index keys become `<right_root>.indexes.<k>`, other right keys
become `<right_root>.<k>`. -/
def _combine_join_entries (left_entry right_entry : Assoc) (right_root : String)
    (right_schema : Schema) : Assoc :=
  let right_index_names := (_index_specs right_schema).map (fun s => s.name)
  right_entry.foldl (fun combined kv =>
    if kv.1 ∈ right_index_names then
      aset combined (right_root ++ ".indexes." ++ kv.1) kv.2
    else aset combined (right_root ++ "." ++ kv.1) kv.2) left_entry

/-- The `[f.strip() for f in select_part.split(",") if f.strip()]`. -/
def parseSelectList (select_part : String) : List String :=
  ((splitComma select_part).map strStrip).filter (fun s => s ≠ "")

/-- The SELECT validation/mapping loop of `sql`: each name must be
allowed; a primary-root qualifier is stripped to obtain the internal
key; other names keep their full form. -/
def resolveSelectAux (allowed : List String) (left_root : String) (joined : Bool) :
    List String → List String → Except String (List String)
  | [], acc => .ok acc.reverse
  | name :: rest, acc =>
      if name ∈ allowed then
        let internal :=
          if strStartsWith name (left_root ++ ".") then
            strDropLen name (left_root.length + 1)
          else name
        resolveSelectAux allowed left_root joined rest (internal :: acc)
      else if joined then
        .error ("Unknown field " ++ name ++ " in SELECT for JOIN query")
      else .error ("Unknown field " ++ name ++ " in SELECT")

/-- SELECT resolution: `*` expands to the engine's star list. -/
def resolveSelect (select_raw : List String) (star_internal : List String)
    (allowed : List String) (left_root : String) (joined : Bool) :
    Except String (List String) :=
  if select_raw = ["*"] then .ok star_internal
  else resolveSelectAux allowed left_root joined select_raw []

/-- The projection loop of `sql`: reshape the entry with the primary
schema and restrict the fields to the selected names, unless the
selection equals the star expansion, in which case all fields are
kept. -/
def projectEntry (left_schema : Schema) (select_internal star_internal : List String)
    (e : Assoc) : Assoc :=
  let reshaped := _reshape_entry e left_schema
  let root_value := (aget reshaped "root").getD .null
  let indexes_v := (aget reshaped "indexes").getD (.obj [])
  let fields_obj := match aget reshaped "fields" with | some (.obj o) => o | _ => []
  let selected :=
    if select_internal = star_internal then fields_obj
    else select_internal.foldl (fun acc f => aset acc f ((aget fields_obj f).getD .null)) []
  [("root", root_value), ("indexes", indexes_v), ("fields", Value.obj selected)]

/-- `search/mods/sql.py`, `sql`: execute the restricted SQL dialect
against `json_data` using the registered schemas.  Mirrors the Python
statement splitter (regex searches for WHERE and `INNER JOIN|JOIN`),
FROM resolution, SELECT validation, the optional join product, the
WHERE filter and the final projection. -/
def sql (reg : Registry) (query : String) (json_data : Value) :
    Except String (List Assoc) :=
  match sqlMatch query with
  | none => .error ("Invalid SQL query: " ++ query)
  | some (select0, from_and_rest0) =>
      let select_part := strStrip select0
      let from_and_rest := strStrip from_and_rest0
      let splitW :=
        match searchWordCI "WHERE".data [] from_and_rest.data with
        | some (before, after) =>
            ((strStrip ⟨before⟩ : String), (some (strStrip ⟨after⟩) : Option String))
        | none => (from_and_rest, none)
      let from_join_part := splitW.1
      let where_part := splitW.2
      match (match searchJoinKw [] from_join_part.data with
             | none => Except.ok (from_join_part, (none : Option (String × String)))
             | some (before, after) =>
                 let primary_from := strStrip ⟨before⟩
                 let rest_join := strStrip ⟨after⟩
                 match searchWordCI "ON".data [] rest_join.data with
                 | none => Except.error "JOIN without ON clause is not supported"
                 | some (b2, a2) =>
                     Except.ok (primary_from, some (strStrip ⟨b2⟩, strStrip ⟨a2⟩))) with
      | .error e => .error e
      | .ok (primary_from, joinSpec) =>
          match _parse_from_root_spec reg primary_from with
          | .error e => .error e
          | .ok (left_root, left_schema, _left_index_names) =>
              let left_field_specs := _field_specs left_schema.fields [] []
              let left_field_names := left_field_specs.map (fun p => p.1)
              let left_field_names_qualified :=
                left_field_names.map (fun n => left_root ++ "." ++ n)
              match joinSpec with
              | none =>
                  let star_internal := left_field_names
                  let allowed := left_field_names ++ left_field_names_qualified
                  match resolveSelect (parseSelectList select_part) star_internal
                      allowed left_root false with
                  | .error e => .error e
                  | .ok select_internal =>
                      let entries0 := _all_entries left_schema json_data none
                      match _build_where_predicate where_part left_schema (some left_root) with
                      | .error e => .error e
                      | .ok wpred =>
                          let entries := entries0.filter wpred
                          .ok (entries.map (projectEntry left_schema select_internal star_internal))
              | some (right_from, on_clause) =>
                  match _parse_from_root_spec reg right_from with
                  | .error e => .error e
                  | .ok (right_root, right_schema, _r_index_names) =>
                      let right_field_specs := _field_specs right_schema.fields [] []
                      let right_field_names := right_field_specs.map (fun p => p.1)
                      let right_field_names_qualified :=
                        right_field_names.map (fun n => right_root ++ "." ++ n)
                      let right_index_field_names :=
                        (_index_specs right_schema).map
                          (fun s => right_root ++ ".indexes." ++ s.name)
                      let star_internal := left_field_names ++ right_field_names_qualified
                      let allowed := left_field_names ++ left_field_names_qualified ++
                        right_field_names_qualified ++ right_index_field_names
                      match resolveSelect (parseSelectList select_part) star_internal
                          allowed left_root true with
                      | .error e => .error e
                      | .ok select_internal =>
                          let left_entries := _all_entries left_schema json_data none
                          let right_entries := _all_entries right_schema json_data none
                          match _parse_join_on on_clause left_root right_root
                              left_schema right_schema with
                          | .error e => .error e
                          | .ok conditions =>
                              let join_pred := _build_join_predicate conditions left_root right_root
                              let joined := left_entries.flatMap (fun le =>
                                (right_entries.filter (fun ren => join_pred le ren)).map
                                  (fun ren => _combine_join_entries le ren right_root right_schema))
                              match _build_where_predicate where_part left_schema (some left_root) with
                              | .error e => .error e
                              | .ok wpred =>
                                  let entries := joined.filter wpred
                                  .ok (entries.map
                                    (projectEntry left_schema select_internal star_internal))

/-! ### Unflattener (`search/mods/unflat.py`) -/

/-- The descend-and-assign loop of `_unflatten_fields`: create nested
dicts along `parts[:-1]` (replacing non-dict intermediates) and assign
the value at the last segment. -/
def setPath (d : Assoc) : List String → Value → Assoc
  | [], _ => d
  | [last], v => aset d last v
  | p :: rest, v =>
      let child := match aget d p with | some (.obj o) => o | _ => []
      aset d p (.obj (setPath child rest v))

/-- `search/mods/unflat.py`, `_unflatten_fields`: expand dotted keys to
a nested tree, skipping `<registered-root>.indexes.<id>` keys. -/
def _unflatten_fields (reg : Registry) (flat_fields : Assoc) : Assoc :=
  flat_fields.foldl (fun result kv =>
    let parts := splitDot kv.1
    if decide (3 ≤ parts.length) && decide (parts.getD 1 "" = "indexes") &&
        (aget reg (parts.headD "")).isSome then result
    else setPath result parts kv.2) []

/-- The recursion of `_deep_merge`, fuelled by the structural size of
the source dict. -/
def deepMergeAux : Nat → Assoc → Assoc → Assoc
  | _, dst, [] => dst
  | 0, dst, _ => dst
  | fuel + 1, dst, (k, v) :: rest =>
      let dst2 :=
        match aget dst k, v with
        | some (.obj dv), .obj sv => aset dst k (.obj (deepMergeAux fuel dv sv))
        | _, _ => aset dst k v
      deepMergeAux fuel dst2 rest

/-- `search/mods/unflat.py`, `_deep_merge`: matching dict values merge
recursively; any other source value overwrites. -/
def _deep_merge (dst src : Assoc) : Assoc := deepMergeAux (vsizeObj src) dst src

/-- Descend into nested dicts along a path, creating empty dicts and
replacing non-dict intermediates, then transform the reached node
(models the `setdefault`/create-and-mutate traversals of
`_unflat_records`). -/
def updateAtPath (d : Assoc) : List String → (Assoc → Assoc) → Assoc
  | [], f => f d
  | p :: rest, f =>
      let child := match aget d p with | some (.obj o) => o | _ => []
      aset d p (.obj (updateAtPath child rest f))

/-- `search/mods/unflat.py`, `_unflat_records`: rebuild a nested
document from canonical records, then rebuild every other registered
root from `<other-root>.…`-prefixed keys. -/
def _unflat_records (reg : Registry) (records : List Assoc) : Assoc :=
  records.foldl (fun result rec_ =>
    let root := pyStrV ((aget rec_ "root").getD .null)
    let indexes := match aget rec_ "indexes" with | some (.obj o) => o | _ => []
    let flat_fields_view := match aget rec_ "fields" with | some (.obj o) => o | _ => []
    let all_flat_fields :=
      match aget rec_ "_all_fields" with
      | some (.obj (p :: t)) => p :: t
      | _ => flat_fields_view
    if root = "" then result
    else
      let index_order : List String :=
        match aget reg root with
        | some schema => (_index_specs schema).map (fun s => s.name)
        | none => indexes.map (fun kv => kv.1)
      let path := index_order.filterMap (fun idx_name =>
        (aget indexes idx_name).map pyStrV)
      let primary_fields_flat := flat_fields_view.filter (fun kv =>
        let first := (splitDot kv.1).headD ""
        !((aget reg first).isSome && first != root))
      let fields_unflat := _unflatten_fields reg primary_fields_flat
      let result1 := updateAtPath result (root :: path)
        (fun node => _deep_merge node fields_unflat)
      reg.foldl (fun res rp =>
        let other_root := rp.1
        let other_schema := rp.2
        if other_root = root then res
        else
          let prefIdx := other_root ++ ".indexes."
          let prefFld := other_root ++ "."
          let other_indexes := all_flat_fields.foldl (fun oi kv =>
            if strStartsWith kv.1 prefIdx then
              aset oi (strDropLen kv.1 prefIdx.length) kv.2
            else oi) []
          let other_fields_flat := flat_fields_view.foldl (fun ofl kv =>
            if strStartsWith kv.1 prefFld then
              let sub := strDropLen kv.1 prefFld.length
              if strStartsWith sub "indexes." then ofl else aset ofl sub kv.2
            else ofl) []
          if other_indexes.isEmpty && other_fields_flat.isEmpty then res
          else
            let idx_order_other := (_index_specs other_schema).map (fun s => s.name)
            let path_other := idx_order_other.filterMap (fun idx_name =>
              (aget other_indexes idx_name).map pyStrV)
            let other_unflat := _unflatten_fields reg other_fields_flat
            updateAtPath res (other_root :: path_other)
              (fun node => _deep_merge node other_unflat)) result1) []

/-! ### Filter-model compilation (`search/mods/decorators.py`,
`search/mods/helper.py`) -/

/-- `search/mods/helper.py`, `_ensure_no_defaults`: raise on the first
annotated attribute that also appears in the class dict (i.e. carries
a default).  Called by the `indexes` and `fields` decorators. -/
def _ensure_no_defaults (annotations : List String) (class_dict : List String) :
    Except String Unit :=
  match annotations with
  | [] => .ok ()
  | name :: rest =>
      if name ∈ class_dict then
        .error ("model cannot define a default value for attribute " ++ name)
      else _ensure_no_defaults rest class_dict

/-- The `alias_candidates` map of the `filters` decorator: short name
(final path segment) to the flat names carrying it, in encounter
order. -/
def aliasCandidates (flat_names : List String) : List (String × List String) :=
  flat_names.foldl (fun m flat_name =>
    let short := (splitDot flat_name).getLastD ""
    match aget m short with
    | some l => aset m short (l ++ [flat_name])
    | none => aset m short [flat_name]) []

/-- The annotation loop of the `filters` decorator body. -/
def filtersCompileAux (idxT fldT : List (String × PyType))
    (aliasU : List (String × String)) (aliasA : List String) :
    List (String × PyType) → List (String × String) →
    Except String (List (String × String))
  | [], acc => .ok acc
  | (name, ann) :: rest, acc =>
      match aget idxT name with
      | some base =>
          if ann = base ∨ ann = .maybe base then
            filtersCompileAux idxT fldT aliasU aliasA rest acc
          else .error ("filter attribute " ++ name ++ " has the wrong type")
      | none =>
          match aget fldT name with
          | some base =>
              if ann = base ∨ ann = .maybe base then
                filtersCompileAux idxT fldT aliasU aliasA rest (aset acc name name)
              else .error ("filter attribute " ++ name ++ " has the wrong type")
          | none =>
              if name ∈ aliasA then
                .error ("filter attribute " ++ name ++ " is ambiguous")
              else
                match aget aliasU name with
                | none =>
                    .error ("filter attribute " ++ name ++
                      " is not present in schema indexes or fields")
                | some flat_name =>
                    match aget fldT flat_name with
                    | some base =>
                        if ann = base ∨ ann = .maybe base then
                          filtersCompileAux idxT fldT aliasU aliasA rest
                            (aset acc name flat_name)
                        else .error ("filter attribute " ++ name ++ " has the wrong type")
                    | none => .error "alias bound to a missing flat field"

/-- `search/mods/decorators.py`, `filters`: compile a filter-model
declaration against a schema.  `annotations` are the declared
attribute names and types; `class_defaults` is the class dict (the
attribute defaults) — faithfully to the source, it is never consulted:
the decorator performs no `_ensure_no_defaults` check.  Returns the
`name → flat-path` map of the compiled model. -/
def filtersCompile (schema : Schema) (annotations : List (String × PyType))
    (class_defaults : List (String × Value)) : Except String (List (String × String)) :=
  let _ := class_defaults
  let index_attr_types := schema.indexes.map (fun s => (s.name, s.type))
  let field_specs := _field_specs schema.fields [] []
  let flat_field_types := field_specs.map (fun p => (p.1, p.2.type))
  let cands := aliasCandidates (flat_field_types.map (fun p => p.1))
  let alias_unique := cands.filterMap (fun p =>
    match p.2 with | [f] => some (p.1, f) | _ => none)
  let alias_ambiguous := (cands.filter (fun p => 2 ≤ p.2.length)).map (fun p => p.1)
  filtersCompileAux index_attr_types flat_field_types alias_unique alias_ambiguous
    annotations []

/-! ### Concrete schemas and documents used by the claim theorems
(mirroring the demo declarations in `search/__init__.py`). -/

/-- The single `id` index of the demo schemas. -/
def idxId : IndexSpec := ⟨"id", .str, false, .null⟩

/-- The `BookFields` tree of the demo: scalar leaves and a nested
`publisher` sub-model with `name` and `city`. -/
def bookFields : FieldTree :=
  .leafCons "title" .str .null
    (.leafCons "author" .str .null
      (.leafCons "available" .bool .null
        (.groupCons "publisher"
          (.leafCons "name" .str .null (.leafCons "city" .str .null .nil)) .nil)))

/-- The demo `books` schema. -/
def bookSchema : Schema := ⟨"books", [idxId], bookFields⟩

/-- A minimal `movies` schema. -/
def movieSchema : Schema := ⟨"movies", [⟨"id", .str, false, .null⟩],
  .leafCons "title" .str .null .nil⟩

/-- Registry with the `books` and `movies` schemas. -/
def demoReg : Registry := register_schema (register_schema [] bookSchema) movieSchema

/-- A demo document with `books` and `movies` roots. -/
def demoDoc : Value := .obj [
  ("books", .obj [
    ("b1", .obj [("title", .str "Dune"), ("author", .str "Herbert"),
                 ("publisher", .obj [("name", .str "Ace"), ("city", .str "London")])])]),
  ("movies", .obj [("m1", .obj [("title", .str "Alien")])])]

/-- The flat field names of `bookSchema`, i.e. the engine's star
expansion for `SELECT * FROM books`. -/
def bookStarNames : List String := ["title", "author", "available", "name", "city"]

/-- A one-field `books` schema used by the flattener/unflattener
counterexamples. -/
def simpleBookSchema : Schema := ⟨"books", [idxId], .leafCons "title" .str .null .nil⟩

/-- Registry holding only `simpleBookSchema`. -/
def simpleReg : Registry := register_schema [] simpleBookSchema

/-- Top level of a document that has no `books` key at all. -/
def c1DocEntries : List (String × Value) :=
  [("movies", .obj [("m1", .obj [("title", .str "Alien")])])]

/-- Document without the `books` root. -/
def c1Doc : Value := .obj c1DocEntries

/-- A document whose (single) traversed entity carries a nested
`publisher.city` value. -/
def c2Doc : Value := .obj [("w", .obj [
  ("title", .str "T"), ("author", .str "A"), ("available", .bool true),
  ("publisher", .obj [("name", .str "P"), ("city", .str "London")])])]

/-- The single record the flattener emits for `c2Doc` under
`bookSchema`. -/
def c2Rec : Assoc :=
  [("id", .str "w"), ("title", .str "T"), ("author", .str "A"),
   ("available", .bool true), ("name", .str "P"), ("city", .str "London"),
   ("entity", .obj [
     ("title", .str "T"), ("author", .str "A"), ("available", .bool true),
     ("publisher", .obj [("name", .str "P"), ("city", .str "London")])])]

/-- The records `SELECT title FROM books` returns over `demoDoc`. -/
def c4Results : List Assoc :=
  [[("root", .str "books"), ("indexes", .obj [("id", .str "books")]),
    ("fields", .obj [("title", .null)])],
   [("root", .str "books"), ("indexes", .obj [("id", .str "movies")]),
    ("fields", .obj [("title", .null)])]]

/-- Two schemas sharing the root name `books` but with different index
names, to observe what a second registration does. -/
def c6S1 : Schema := ⟨"books", [⟨"id", .str, false, .null⟩], .leafCons "title" .str .null .nil⟩

/-- Second schema with the same root as `c6S1`. -/
def c6S2 : Schema := ⟨"books", [⟨"key", .str, false, .null⟩], .leafCons "name" .str .null .nil⟩

/-- One-entry document under the `books` root for the round-trip
claim. -/
def c8Doc : Value := .obj [("books", .obj [("b1", .obj [("title", .str "x")])])]

/-- `c8Doc` restricted to the declared flat field set of
`simpleBookSchema` — what claim P6 says the round trip returns. -/
def c8Restricted : Assoc := [("books", .obj [("b1", .obj [("title", .str "x")])])]

/-- The canonical records obtained by flattening `c8Doc` with
`simpleBookSchema` and reshaping. -/
def c8Records : List Assoc :=
  (_all_entries simpleBookSchema c8Doc none).map
    (fun e => _reshape_entry e simpleBookSchema)

/-- The first record of `SELECT * FROM books` over `demoDoc`. -/
def c10StarRecord : Assoc :=
  [("root", .str "books"), ("indexes", .obj [("id", .str "books")]),
   ("fields", .obj [("title", .null), ("author", .null), ("available", .null),
     ("name", .null), ("city", .null),
     ("entity", .obj [("b1", .obj [("title", .str "Dune"), ("author", .str "Herbert"),
       ("publisher", .obj [("name", .str "Ace"), ("city", .str "London")])])])])]

/-- Both records of `SELECT * FROM books` over `demoDoc`. -/
def c10StarResults : List Assoc :=
  [c10StarRecord,
   [("root", .str "books"), ("indexes", .obj [("id", .str "movies")]),
    ("fields", .obj [("title", .null), ("author", .null), ("available", .null),
      ("name", .null), ("city", .null),
      ("entity", .obj [("m1", .obj [("title", .str "Alien")])])])]]

/-- Nested lookup in a value along a key path (an observation helper
for stating theorems about nested results). -/
def vgetPath : Value → List String → Option Value
  | v, [] => some v
  | .obj kvs, p :: ps =>
      (match aget kvs p with
       | some v => vgetPath v ps
       | none => none)
  | _, _ :: _ => none

/-! ### Association-list lemmas -/

theorem aget_aset_self {α : Type} (l : List (String × α)) (k : String) (v : α) :
    aget (aset l k v) k = some v := by
  induction l with
  | nil => simp [aset, aget]
  | cons kv t ih =>
      obtain ⟨k0, v0⟩ := kv
      by_cases hk : k0 = k
      · simp [aset, hk, aget]
      · simp [aset, hk, aget, ih]

theorem aget_aset_ne {α : Type} (l : List (String × α)) (k k' : String) (v : α)
    (h : k' ≠ k) : aget (aset l k v) k' = aget l k' := by
  induction l with
  | nil =>
      simp only [aset, aget]
      exact if_neg (fun hh => h hh.symm)
  | cons kv t ih =>
      obtain ⟨k0, v0⟩ := kv
      by_cases hk : k0 = k
      · subst hk
        have hne : ¬ k0 = k' := fun hh => h hh.symm
        simp [aset, aget, hne]
      · simp only [aset, hk, if_false, aget]
        by_cases hk' : k0 = k'
        · simp [hk']
        · simp [hk', ih]

theorem mem_keys_aset {α : Type} (l : List (String × α)) (k k' : String) (v : α) :
    k' ∈ (aset l k v).map Prod.fst ↔ k' ∈ l.map Prod.fst ∨ k' = k := by
  induction l with
  | nil => simp [aset]
  | cons kv t ih =>
      obtain ⟨k0, v0⟩ := kv
      by_cases hk : k0 = k
      · subst hk; simp [aset]; tauto
      · simp [aset, hk, ih]; tauto

theorem nodup_keys_aset {α : Type} (l : List (String × α)) (k : String) (v : α)
    (h : (l.map Prod.fst).Nodup) : ((aset l k v).map Prod.fst).Nodup := by
  induction l with
  | nil => simp [aset]
  | cons kv t ih =>
      obtain ⟨k0, v0⟩ := kv
      rw [List.map_cons, List.nodup_cons] at h
      by_cases hk : k0 = k
      · subst hk
        rw [show aset ((k0, v0) :: t) k0 v = (k0, v) :: t by simp [aset],
          List.map_cons, List.nodup_cons]
        exact h
      · simp only [aset, hk, if_false, List.map_cons, List.nodup_cons]
        refine ⟨?_, ih h.2⟩
        intro hmem
        rcases (mem_keys_aset t k k0 v).mp hmem with h1 | h2
        · exact h.1 h1
        · exact hk h2

theorem aget_foldl_aset_not_mem {α β : Type} (f : (String × β) → α)
    (l : List (String × β)) (init : List (String × α)) (k : String)
    (h : k ∉ l.map Prod.fst) :
    aget (l.foldl (fun r p => aset r p.1 (f p)) init) k = aget init k := by
  induction l generalizing init with
  | nil => rfl
  | cons p t ih =>
      simp only [List.map_cons, List.mem_cons, not_or] at h
      rw [List.foldl_cons, ih _ h.2, aget_aset_ne _ _ _ _ h.1]

theorem aget_foldl_aset_mem {α β : Type} (f : (String × β) → α)
    (l : List (String × β)) (init : List (String × α)) (k : String) (b : β)
    (hnd : (l.map Prod.fst).Nodup) (hm : (k, b) ∈ l) :
    aget (l.foldl (fun r p => aset r p.1 (f p)) init) k = some (f (k, b)) := by
  induction l generalizing init with
  | nil => cases hm
  | cons p t ih =>
      simp only [List.map_cons, List.nodup_cons] at hnd
      rw [List.foldl_cons]
      rcases List.mem_cons.mp hm with heq | htail
      · subst heq
        rw [aget_foldl_aset_not_mem f t _ k hnd.1, aget_aset_self]
      · exact ih _ hnd.2 htail

theorem nodup_foldl_aset {α β : Type} (f : (String × β) → α) (l : List (String × β))
    (init : List (String × α)) (h : (init.map Prod.fst).Nodup) :
    ((l.foldl (fun r p => aset r p.1 (f p)) init).map Prod.fst).Nodup := by
  induction l generalizing init with
  | nil => exact h
  | cons p t ih => exact ih _ (nodup_keys_aset _ _ _ h)

/-! ### Structure of flattened records -/

theorem field_specs_nodup (t : FieldTree) : ∀ (pre : List String)
    (res : List (String × FieldSpec)), (res.map Prod.fst).Nodup →
    ((_field_specs t pre res).map Prod.fst).Nodup := by
  induction t with
  | nil => intro pre res h; exact h
  | leafCons n ty d rest ih =>
      intro pre res h
      exact ih pre _ (nodup_keys_aset _ _ _ h)
  | groupCons n ch rest ih1 ih2 =>
      intro pre res h
      exact ih2 pre _ (ih1 _ _ h)

theorem iterAux_nodup (filt : Assoc) (specs : List IndexSpec) :
    ∀ (node : Value) (acc iv : Assoc) (e : Value),
      (iv, e) ∈ iterAux filt specs node acc → (acc.map Prod.fst).Nodup →
      (iv.map Prod.fst).Nodup := by
  induction specs with
  | nil =>
      intro node acc iv e hm hnd
      cases node <;> simp only [iterAux] at hm
      case obj kvs =>
        rw [List.mem_singleton] at hm
        cases hm
        exact hnd
      all_goals cases hm
  | cons spec rest ih =>
      intro node acc iv e hm hnd
      cases node <;> simp only [iterAux] at hm
      case obj kvs =>
        rw [List.mem_flatMap] at hm
        obtain ⟨kv, hkv, hmem⟩ := hm
        rcases haf : aget filt spec.name with _ | fval
        · simp only [haf] at hmem
          exact ih kv.2 _ iv e hmem (nodup_keys_aset _ _ _ hnd)
        · simp only [haf] at hmem
          by_cases heq : kv.1 = pyStrV fval
          · rw [if_pos heq] at hmem
            exact ih kv.2 _ iv e hmem (nodup_keys_aset _ _ _ hnd)
          · rw [if_neg heq] at hmem
            cases hmem
      all_goals cases hm

theorem iter_fst_nodup (d : Value) (specs : List IndexSpec) (filt : Assoc)
    (iv : Assoc) (e : Value) (h : (iv, e) ∈ _iter d specs filt) :
    (iv.map Prod.fst).Nodup := by
  cases specs with
  | nil =>
      simp only [_iter, List.mem_singleton] at h
      cases h
      simp
  | cons s rest =>
      exact iterAux_nodup filt (s :: rest) d [] iv e h (by simp)

theorem mem_all_entries (s : Schema) (d : Value) (flt : Filters) (r : Assoc)
    (h : r ∈ _all_entries s d flt) :
    ∃ iv kvs, (iv, Value.obj kvs) ∈ _iter d (_index_specs s) (_index_filters s flt) ∧
      r = aset ((_field_specs s.fields [] []).foldl
          (fun rr fs => aset rr fs.1 (_get_in (Value.obj kvs) fs.2.path fs.2.default)) iv)
        "entity" (Value.obj kvs) := by
  simp only [_all_entries, List.mem_filterMap] at h
  obtain ⟨⟨iv, ent⟩, hmem, heq⟩ := h
  cases ent <;> simp at heq
  exact ⟨iv, _, hmem, heq.symm⟩

theorem all_entries_keys_nodup (s : Schema) (d : Value) (flt : Filters) (r : Assoc)
    (h : r ∈ _all_entries s d flt) : (r.map Prod.fst).Nodup := by
  obtain ⟨iv, kvs, hmem, heq⟩ := mem_all_entries s d flt r h
  subst heq
  exact nodup_keys_aset _ _ _
    (nodup_foldl_aset _ _ _ (iter_fst_nodup d _ _ iv _ hmem))

theorem all_entries_entity (s : Schema) (d : Value) (flt : Filters) (r : Assoc)
    (h : r ∈ _all_entries s d flt) :
    ∃ iv kvs, (iv, Value.obj kvs) ∈ _iter d (_index_specs s) (_index_filters s flt) ∧
      aget r "entity" = some (Value.obj kvs) := by
  obtain ⟨iv, kvs, hmem, heq⟩ := mem_all_entries s d flt r h
  subst heq
  exact ⟨iv, kvs, hmem, aget_aset_self _ _ _⟩

theorem all_entries_field (s : Schema) (d : Value) (flt : Filters) (r : Assoc)
    (h : r ∈ _all_entries s d flt) (fname : String) (spec : FieldSpec)
    (hm : (fname, spec) ∈ _field_specs s.fields [] []) (hne : fname ≠ "entity") :
    ∃ kvs, aget r "entity" = some (Value.obj kvs) ∧
      aget r fname = some (_get_in (Value.obj kvs) spec.path spec.default) := by
  obtain ⟨iv, kvs, hmem, heq⟩ := mem_all_entries s d flt r h
  subst heq
  refine ⟨kvs, aget_aset_self _ _ _, ?_⟩
  rw [aget_aset_ne _ _ _ _ hne]
  exact aget_foldl_aset_mem
    (fun fs => _get_in (Value.obj kvs) fs.2.path fs.2.default)
    (_field_specs s.fields [] []) iv fname spec
    (field_specs_nodup s.fields [] [] (by simp)) hm

/-! ### Reshaping and filtering lemmas -/

theorem reshape_fold_snd_not_mem (idxn : List String) (k : String) :
    ∀ (e : Assoc) (accI accF : Assoc), k ∉ e.map Prod.fst →
      aget ((e.foldl (fun (p : Assoc × Assoc) kv =>
          if kv.1 ∈ idxn then (aset p.1 kv.1 kv.2, p.2)
          else (p.1, aset p.2 kv.1 kv.2)) (accI, accF)).2) k = aget accF k := by
  intro e
  induction e with
  | nil => intro accI accF _; rfl
  | cons kv t ih =>
      intro accI accF h
      simp only [List.map_cons, List.mem_cons, not_or] at h
      rw [List.foldl_cons]
      by_cases hm : kv.1 ∈ idxn
      · rw [if_pos hm, ih _ _ h.2]
      · rw [if_neg hm, ih _ _ h.2, aget_aset_ne _ _ _ _ h.1]

theorem reshape_fold_snd_mem (idxn : List String) (k : String) (v : Value)
    (hk : k ∉ idxn) :
    ∀ (e : Assoc) (accI accF : Assoc), (e.map Prod.fst).Nodup → aget e k = some v →
      aget ((e.foldl (fun (p : Assoc × Assoc) kv =>
          if kv.1 ∈ idxn then (aset p.1 kv.1 kv.2, p.2)
          else (p.1, aset p.2 kv.1 kv.2)) (accI, accF)).2) k = some v := by
  intro e
  induction e with
  | nil =>
      intro accI accF _ hg
      simp [aget] at hg
  | cons kv t ih =>
      intro accI accF hnd hg
      obtain ⟨k0, v0⟩ := kv
      rw [List.map_cons, List.nodup_cons] at hnd
      rw [List.foldl_cons]
      by_cases hk0 : k0 = k
      · subst hk0
        simp [aget] at hg
        subst hg
        rw [if_neg hk]
        rw [reshape_fold_snd_not_mem idxn k0 t _ _ hnd.1, aget_aset_self]
      · simp only [aget, hk0, if_false] at hg
        by_cases hm : k0 ∈ idxn
        · rw [if_pos hm]; exact ih _ _ hnd.2 hg
        · rw [if_neg hm]; exact ih _ _ hnd.2 hg

theorem reshape_entry_fields (e : Assoc) (s : Schema) (v : Value)
    (hnd : (e.map Prod.fst).Nodup)
    (hent : aget e "entity" = some v)
    (hni : "entity" ∉ (_index_specs s).map (fun i => i.name)) :
    ∃ flds, aget (_reshape_entry e s) "fields" = some (Value.obj flds) ∧
      aget flds "entity" = some v := by
  refine ⟨(e.foldl (fun (p : Assoc × Assoc) kv =>
      if kv.1 ∈ (_index_specs s).map (fun i => i.name) then (aset p.1 kv.1 kv.2, p.2)
      else (p.1, aset p.2 kv.1 kv.2)) ([], [])).2, ?_, ?_⟩
  · rfl
  · exact reshape_fold_snd_mem _ _ _ hni e [] [] hnd hent

theorem apply_filters_subset (entries : List Assoc) (s : Schema) (flt : Filters)
    (x : Assoc) (h : x ∈ _apply_filters entries s flt) : x ∈ entries := by
  cases flt with
  | none => exact h
  | some fa =>
      simp only [_apply_filters] at h
      induction fa generalizing entries with
      | nil => exact h
      | cons nv t ih =>
          rw [List.foldl_cons] at h
          have hsub : ∀ (es : List Assoc),
              x ∈ (if nv.1 ∈ (_index_specs s).map (fun sp => sp.name) then es
                else match nv.2 with
                  | .null => es
                  | fval => es.filter (fun e =>
                      pyNorm (aget e nv.1) = pyNorm (some fval))) → x ∈ es := by
            intro es hx
            by_cases hm : nv.1 ∈ (_index_specs s).map (fun sp => sp.name)
            · rwa [if_pos hm] at hx
            · rw [if_neg hm] at hx
              rcases hv : nv.2 with _ | _ | _ | _ | _ | _ | _ <;> rw [hv] at hx
              · exact hx
              all_goals exact (List.mem_filter.mp hx).1
          exact hsub entries (ih _ h)

theorem filtered_entries_subset (s : Schema) (d : Value) (flt : Filters) (x : Assoc)
    (h : x ∈ _filtered_entries s d flt) : x ∈ _all_entries s d flt :=
  apply_filters_subset _ s flt x h

theorem projectEntry_shape (ls : Schema) (sel star : List String) (e : Assoc) :
    (projectEntry ls sel star e).map Prod.fst = ["root", "indexes", "fields"] ∧
    aget (projectEntry ls sel star e) "_all_fields" = none := ⟨rfl, rfl⟩

theorem sql_ok_record_shape (reg : Registry) (q : String) (d : Value)
    (rs : List Assoc) (h : sql reg q d = Except.ok rs) (r : Assoc) (hr : r ∈ rs) :
    r.map Prod.fst = ["root", "indexes", "fields"] ∧ aget r "_all_fields" = none := by
  unfold sql at h
  dsimp only at h
  repeat' (first | (split at h) | (dsimp only at h))
  all_goals
    first
      | (rw [Except.ok.injEq] at h
         subst h
         obtain ⟨e, he, hfe⟩ := List.mem_map.mp hr
         rw [← hfe]
         exact projectEntry_shape _ _ _ _)
      | exact absurd h (by simp)

/-! ### Claim theorems -/

/-- Claim C1 (code bug): the spec says `flatten` reads the document's
top-level value at `schema.root` and yields nothing when that key is
absent.  The code passes the whole document to `_iter`, so on a
document with no `books` key the flattener still emits a record, and
that record's `id` index value is the foreign top-level key
`"movies"`. -/
theorem c1_flattener_ignores_root :
    aget c1DocEntries "books" = none ∧
    _all_entries simpleBookSchema c1Doc none =
      [[("id", .str "movies"), ("title", .null),
        ("entity", .obj [("m1", .obj [("title", .str "Alien")])])]] :=
  ⟨rfl, rfl⟩

/-- Claim C2, counterexample: the flattener stores each field under its
leaf short name, not under the dotted path — the record for `c2Doc`
has no `publisher.city` key, only `city`, and likewise the field-spec
table is keyed by `city`. -/
theorem c2_counterexample :
    _all_entries bookSchema c2Doc none = [c2Rec] ∧
    aget (_field_specs bookSchema.fields [] []) "publisher.city" = none ∧
    aget c2Rec "publisher.city" = none ∧
    aget c2Rec "city" = some (.str "London") :=
  ⟨rfl, rfl, rfl, rfl⟩

/-- Claim C2, amended: every record emitted by the flattener has
pairwise-distinct keys and contains, for every entry `(fname, spec)`
of the schema's field-spec table (keyed by the final path segment,
with a colliding leaf name bound to the last such path), provided
`fname` is not the reserved key `entity`, exactly one entry under
`fname` whose value is obtained by walking `spec.path` in the record's
entity with default `spec.default`. -/
theorem c2_amended_records (s : Schema) (d : Value) (flt : Filters) (r : Assoc)
    (hr : r ∈ _all_entries s d flt) :
    (r.map Prod.fst).Nodup ∧
    ∀ fname spec, (fname, spec) ∈ _field_specs s.fields [] [] → fname ≠ "entity" →
      ∃ kvs, aget r "entity" = some (Value.obj kvs) ∧
        aget r fname = some (_get_in (Value.obj kvs) spec.path spec.default) :=
  ⟨all_entries_keys_nodup s d flt r hr,
   fun fname spec hm hne => all_entries_field s d flt r hr fname spec hm hne⟩

/-- Claim C2, witness: the amended statement applied to `bookSchema`,
`c2Doc` and the concrete record, at the flat path
`publisher.city` (stored under `city`). -/
theorem c2_amended_records_witness :
    ∃ kvs, aget c2Rec "entity" = some (Value.obj kvs) ∧
      aget c2Rec "city" = some (_get_in (Value.obj kvs) ["publisher", "city"] Value.null) := by
  have hmem : c2Rec ∈ _all_entries bookSchema c2Doc none := by
    rw [show _all_entries bookSchema c2Doc none = [c2Rec] from rfl]
    exact List.mem_singleton.mpr rfl
  have hspec : ("city", (⟨["publisher", "city"], PyType.str, Value.null⟩ : FieldSpec)) ∈
      _field_specs bookSchema.fields [] [] := by
    rw [show _field_specs bookSchema.fields [] [] =
      [("title", ⟨["title"], PyType.str, Value.null⟩),
       ("author", ⟨["author"], PyType.str, Value.null⟩),
       ("available", ⟨["available"], PyType.bool, Value.null⟩),
       ("name", ⟨["publisher", "name"], PyType.str, Value.null⟩),
       ("city", ⟨["publisher", "city"], PyType.str, Value.null⟩)] from rfl]
    exact .tail _ (.tail _ (.tail _ (.tail _ (.head _))))
  exact (c2_amended_records bookSchema c2Doc none c2Rec hmem).2 "city"
    ⟨["publisher", "city"], PyType.str, Value.null⟩ hspec (by decide)

/-- Claim C3, counterexample: `CROSS JOIN` without `ON` is not
accepted — the engine's join splitter reads the `JOIN` inside
`CROSS JOIN` as a plain join and rejects the missing `ON` clause. -/
theorem c3_counterexample :
    sql demoReg "SELECT * FROM books CROSS JOIN movies" demoDoc =
      .error "JOIN without ON clause is not supported" := rfl

/-- Claim C3, amended: the SQL engine does not support `CROSS JOIN` at
all.  For every document, `FROM books CROSS JOIN movies` without `ON`
fails with the JOIN-without-ON error, and with an `ON` clause it fails
because the FROM spec resolves to the unregistered root
`books CROSS`. -/
theorem c3_amended_no_cross_join :
    (∀ d : Value, sql demoReg "SELECT * FROM books CROSS JOIN movies" d =
      .error "JOIN without ON clause is not supported") ∧
    (∀ d : Value,
      sql demoReg "SELECT * FROM books CROSS JOIN movies ON books.title = movies.title" d =
        .error "No schema registered for root books CROSS. Use register_schema first.") :=
  ⟨fun _ => rfl, fun _ => rfl⟩

/-- Claim C6, counterexample: registering a second schema under the
already-taken root `books` does not fail — it silently replaces the
first registration (the stored index names change from `id` to
`key`). -/
theorem c6_counterexample :
    (aget (register_schema [] c6S1) "books").map
      (fun s => (_index_specs s).map (fun i => i.name)) = some ["id"] ∧
    (aget (register_schema (register_schema [] c6S1) c6S2) "books").map
      (fun s => (_index_specs s).map (fun i => i.name)) = some ["key"] :=
  ⟨rfl, rfl⟩

/-- Claim C6, amended: `register_schema` is a total dict assignment —
it never fails, and after registering a schema the registry maps the
schema's root to that schema, replacing any previous entry. -/
theorem c6_amended_overwrite (reg : Registry) (s : Schema) :
    aget (register_schema reg s) s.root = some s :=
  aget_aset_self reg s.root s

/-- Claim C7, counterexample: a filter-model declaration whose
attributes carry defaults (the repo's own `BookFilter3`:
`id : Maybe(Str) = None`, `available : Bool = True`) compiles without
error — the `filters` decorator never rejects defaults. -/
theorem c7_counterexample :
    filtersCompile bookSchema [("id", .maybe .str), ("available", .bool)]
      [("id", Value.null), ("available", Value.bool true)] =
      .ok [("available", "available")] := rfl

/-- Claim C7, amended: the `filters` decorator ignores class-level
defaults entirely (its compilation result does not depend on them);
the no-defaults rejection exists only in `_ensure_no_defaults`, which
the `indexes` and `fields` decorators call — it errors whenever some
annotated attribute appears in the class dict. -/
theorem c7_amended_defaults_ignored :
    (∀ (schema : Schema) (anns : List (String × PyType))
        (defs1 defs2 : List (String × Value)),
      filtersCompile schema anns defs1 = filtersCompile schema anns defs2) ∧
    (∀ (anns cd : List String) (n : String), n ∈ anns → n ∈ cd →
      ∃ m, _ensure_no_defaults anns cd = .error m) := by
  refine ⟨fun _ _ _ _ => rfl, ?_⟩
  intro anns cd n hn hc
  induction anns with
  | nil => cases hn
  | cons a rest ih =>
      by_cases ha : a ∈ cd
      · exact ⟨"model cannot define a default value for attribute " ++ a,
          by simp [_ensure_no_defaults, ha]⟩
      · rcases List.mem_cons.mp hn with heq | htail
        · subst heq; exact absurd hc ha
        · obtain ⟨m, hm⟩ := ih htail
          exact ⟨m, by simp [_ensure_no_defaults, ha, hm]⟩

/-- Claim C7, witness: the amended statement applied at a concrete
declaration (`id` annotated and carrying a default). -/
theorem c7_amended_defaults_ignored_witness :
    ∃ m, _ensure_no_defaults ["id"] ["id"] = .error m :=
  c7_amended_defaults_ignored.2 ["id"] ["id"] "id"
    (List.mem_singleton.mpr rfl) (List.mem_singleton.mpr rfl)

/-- Claim C8 (code bug): `unflat(flatten(S, D, ∅))` does not reproduce
`D` restricted to the flat field set.  For the one-book document the
round trip nests the record under the top-level key `books` used as an
index value, stores `title = null`, and injects the raw `entity`
mapping; the entry `b1` required by the claim is absent. -/
theorem c8_roundtrip_fails :
    _unflat_records simpleReg c8Records =
      [("books", .obj [("books", .obj [("title", .null),
        ("entity", .obj [("b1", .obj [("title", .str "x")])])])])] ∧
    vgetPath (.obj (_unflat_records simpleReg c8Records)) ["books", "b1"] = none ∧
    vgetPath (.obj c8Restricted) ["books", "b1"] = some (.obj [("title", .str "x")]) :=
  ⟨rfl, rfl, rfl⟩

/-- Claim C9: the fuzzy threshold is
`0.9 - 0.8 * (clamp(temp, 0, 100) / 100)`; in particular
`threshold 0 = 0.9`, `threshold 50 = 0.5`, `threshold 100 = 0.1`, and
out-of-range temperatures clamp to the nearest bound. -/
theorem c9_threshold :
    (∀ t : ℚ, _similarity_threshold t = 9/10 - 8/10 * (max 0 (min 100 t) / 100)) ∧
    _similarity_threshold 0 = 9/10 ∧
    _similarity_threshold 50 = 1/2 ∧
    _similarity_threshold 100 = 1/10 ∧
    (∀ t : ℚ, t ≤ 0 → _similarity_threshold t = _similarity_threshold 0) ∧
    (∀ t : ℚ, 100 ≤ t → _similarity_threshold t = _similarity_threshold 100) := by
  refine ⟨fun t => rfl, by norm_num [_similarity_threshold],
    by norm_num [_similarity_threshold], by norm_num [_similarity_threshold], ?_, ?_⟩
  · intro t ht
    simp only [_similarity_threshold]
    rw [min_eq_right (le_trans ht (by norm_num)), max_eq_left ht]
    norm_num
  · intro t ht
    simp only [_similarity_threshold]
    rw [min_eq_left ht]
    norm_num

/-- Claim C9, witness: clamping applied at concrete out-of-range
temperatures. -/
theorem c9_threshold_witness :
    _similarity_threshold (-5) = 9/10 ∧ _similarity_threshold 123 = 1/10 := by
  constructor
  · rw [c9_threshold.2.2.2.2.1 (-5) (by norm_num)]
    exact c9_threshold.2.1
  · rw [c9_threshold.2.2.2.2.2 123 (by norm_num)]
    exact c9_threshold.2.2.2.1

/-- Claim C4, counterexample: the records `sql` returns carry only
`root`, `indexes` and `fields` — no record of
`SELECT title FROM books` has an `_all_fields` key. -/
theorem c4_counterexample :
    sql demoReg "SELECT title FROM books" demoDoc = .ok c4Results ∧
    c4Results.all (fun r => (aget r "_all_fields").isNone) = true :=
  ⟨rfl, rfl⟩

/-- Claim C4, amended: every record of every successful `sql` call has
exactly the keys `root`, `indexes`, `fields` in that order, and in
particular carries no `_all_fields` entry (the unflattener falls back
to `fields` when `_all_fields` is absent). -/
theorem c4_amended_no_all_fields (reg : Registry) (q : String) (d : Value)
    (rs : List Assoc) (h : sql reg q d = Except.ok rs) (r : Assoc) (hr : r ∈ rs) :
    r.map Prod.fst = ["root", "indexes", "fields"] ∧ aget r "_all_fields" = none :=
  sql_ok_record_shape reg q d rs h r hr

/-- Claim C4, witness: the amended statement applied to the first
record of the concrete `SELECT title FROM books` run. -/
theorem c4_amended_no_all_fields_witness :
    ([("root", Value.str "books"), ("indexes", Value.obj [("id", Value.str "books")]),
      ("fields", Value.obj [("title", Value.null)])] : Assoc).map Prod.fst =
      ["root", "indexes", "fields"] ∧
    aget ([("root", Value.str "books"), ("indexes", Value.obj [("id", Value.str "books")]),
      ("fields", Value.obj [("title", Value.null)])] : Assoc) "_all_fields" = none :=
  c4_amended_no_all_fields demoReg "SELECT title FROM books" demoDoc c4Results rfl _
    (List.Mem.head _)

/-- Claim C5, counterexample: a WHERE condition whose identifier
(`bogus`) names neither an index nor a declared field does not raise
an unknown-reference error — the query evaluates and returns the empty
result. -/
theorem c5_counterexample :
    sql demoReg "SELECT title FROM books WHERE bogus = 1" demoDoc = .ok [] := rfl

/-- Claim C5, amended: in `_parse_condition`, after stripping the
primary-root qualifier, only an `indexes.`-prefixed identifier naming
an unknown index raises an unknown-reference error; every other
identifier — including names that resolve to neither an index nor a
declared field — is accepted and compiled to the direct comparison
`entry.get(ident) == literal`. -/
theorem c5_amended_unknown_accepted (index_names : List String)
    (primary_root : Option String) (ident val : String) (rest : List String)
    (hid : ¬(ident = "(" ∨ ident = ")" ∨ ident = "=" ∨ ident = "AND" ∨ ident = "OR"))
    (hval : ¬(strUpper val = "AND" ∨ strUpper val = "OR" ∨ val = "(" ∨ val = ")" ∨
      val = "=")) :
    (¬ strStartsWith (strLower (wStripRoot primary_root ident)) "indexes." = true →
      wParseCondition index_names primary_root (ident :: "=" :: val :: rest) =
        .ok ((fun entry => pyEq ((aget entry (wStripRoot primary_root ident)).getD
          Value.null) (_parse_literal val)), rest)) ∧
    (strStartsWith (strLower (wStripRoot primary_root ident)) "indexes." = true →
      afterFirstDot (wStripRoot primary_root ident) ∉ index_names →
      wParseCondition index_names primary_root (ident :: "=" :: val :: rest) =
        .error ("Unknown index name " ++ afterFirstDot (wStripRoot primary_root ident) ++
          " in WHERE")) := by
  have h1 : wConsumeIdentifier (ident :: "=" :: val :: rest) =
      .ok (ident, "=" :: val :: rest) := by
    simp only [wConsumeIdentifier]
    rw [if_neg hid]
  constructor
  · intro hni
    have hres : wResolveField index_names primary_root ident =
        .ok (wStripRoot primary_root ident) := by
      simp only [wResolveField]
      rw [if_neg hni]
      exact ite_self _
    simp only [wParseCondition, h1]
    rw [if_pos (show strUpper "=" = "=" from rfl), if_neg hval, hres]
  · intro hyes hnm
    have hres : wResolveField index_names primary_root ident =
        .error ("Unknown index name " ++ afterFirstDot (wStripRoot primary_root ident) ++
          " in WHERE") := by
      simp only [wResolveField]
      rw [if_pos hyes, if_neg hnm]
    simp only [wParseCondition, h1]
    rw [if_pos (show strUpper "=" = "=" from rfl), if_neg hval, hres]

/-- Claim C5, witness: the amended statement applied to the identifier
`bogus` (not a reserved token, not `indexes.`-prefixed): the condition
parses to the direct comparison predicate. -/
theorem c5_amended_unknown_accepted_witness :
    wParseCondition ["id"] (some "books") ["bogus", "=", "1"] =
      .ok ((fun entry => pyEq ((aget entry (wStripRoot (some "books") "bogus")).getD
        Value.null) (_parse_literal "1")), []) :=
  (c5_amended_unknown_accepted ["id"] (some "books") "bogus" "1" []
    (by decide) (by decide)).1 (by decide)

/-- Star projection keeps the entire reshaped fields map. -/
theorem projectEntry_fields_star (ls : Schema) (star : List String) (e : Assoc) :
    aget (projectEntry ls star star e) "fields" =
      some (Value.obj (match aget (_reshape_entry e ls) "fields" with
        | some (.obj o) => o
        | _ => [])) := by
  simp only [projectEntry, if_pos rfl]
  rfl

/-- Claim C10: every flattened record carries an `entity` key holding
the original entity mapping; since reshaping sends every non-index key
to `fields`, the `entity` key (with the raw entity) lands in the
`fields` map of every reshaped search-pipeline record (whenever no
index is literally named `entity`), and in every record of a
star-projected `sql` query. -/
theorem c10_entity_in_fields :
    (∀ (s : Schema) (d : Value) (flt : Filters) (r : Assoc), r ∈ _all_entries s d flt →
      ∃ iv kvs, (iv, Value.obj kvs) ∈ _iter d (_index_specs s) (_index_filters s flt) ∧
        aget r "entity" = some (Value.obj kvs)) ∧
    (∀ (s : Schema) (d : Value) (flt : Filters) (e : Assoc),
      "entity" ∉ (_index_specs s).map (fun i => i.name) →
      e ∈ _filtered_entries s d flt →
      ∃ flds ent, aget (_reshape_entry e s) "fields" = some (Value.obj flds) ∧
        aget e "entity" = some ent ∧ aget flds "entity" = some ent) ∧
    (∀ (d : Value) (rs : List Assoc),
      sql demoReg "SELECT * FROM books" d = Except.ok rs →
      ∀ r ∈ rs, ∃ flds ent, aget r "fields" = some (Value.obj flds) ∧
        aget flds "entity" = some ent) := by
  refine ⟨fun s d flt r hr => all_entries_entity s d flt r hr, ?_, ?_⟩
  · intro s d flt e hni he
    have hall := filtered_entries_subset s d flt e he
    obtain ⟨iv, kvs, hmem, hent⟩ := all_entries_entity s d flt e hall
    obtain ⟨flds, hf1, hf2⟩ := reshape_entry_fields e s (Value.obj kvs)
      (all_entries_keys_nodup s d flt e hall) hent hni
    exact ⟨flds, Value.obj kvs, hf1, hent, hf2⟩
  · intro d rs h r hr
    have hs : sql demoReg "SELECT * FROM books" d =
        Except.ok (((_all_entries bookSchema d none).filter (fun _ => true)).map
          (projectEntry bookSchema bookStarNames bookStarNames)) := rfl
    rw [hs, Except.ok.injEq] at h
    subst h
    obtain ⟨e, he, hfe⟩ := List.mem_map.mp hr
    have hall : e ∈ _all_entries bookSchema d none := (List.mem_filter.mp he).1
    obtain ⟨iv, kvs, hmem, hent⟩ := all_entries_entity bookSchema d none e hall
    obtain ⟨flds, hf1, hf2⟩ := reshape_entry_fields e bookSchema (Value.obj kvs)
      (all_entries_keys_nodup bookSchema d none e hall) hent (by decide)
    refine ⟨flds, Value.obj kvs, ?_, hf2⟩
    rw [← hfe, projectEntry_fields_star, hf1]

/-- Claim C10, witness: the star-projection part applied to the
concrete `SELECT * FROM books` run over the demo document. -/
theorem c10_entity_in_fields_witness :
    ∃ flds ent, aget c10StarRecord "fields" = some (Value.obj flds) ∧
      aget flds "entity" = some ent :=
  c10_entity_in_fields.2.2 demoDoc c10StarResults rfl c10StarRecord (List.Mem.head _)

end SearchRepo

